import Mathlib

/-!
Verification model of the Nuxt server proxy handler
(`src/server/api/proxy/[...path].ts`).

Strings are modelled as `List Char` (`Str`), mirroring JavaScript string
operations character by character.  All definitions below are transcribed
from the source file; section comments cite the source lines.
-/

namespace Proxy

/-- JavaScript strings are modelled as lists of characters. -/
abbrev Str := List Char

/-- Shorthand turning a Lean string literal into the `Str` model. -/
def S (s : String) : Str := s.data

/-- JS `s.startsWith(p)`. -/
def jsStartsWith (s p : Str) : Bool := p.isPrefixOf s

/-- JS `s.includes(p)` (substring containment). -/
def jsIncludes (s p : Str) : Bool := decide (p <:+: s)

/-- JS `s.toLowerCase()` (ASCII model). -/
def toLowerStr (s : Str) : Str := s.map Char.toLower

/-- JS `s.trim()`: strip whitespace from both ends. -/
def jsTrim (s : Str) : Str :=
  ((s.dropWhile Char.isWhitespace).reverse.dropWhile Char.isWhitespace).reverse

/-- JS `s.split(sep)` for a one-character separator: always returns at
least one (possibly empty) part. -/
def splitChar (sep : Char) : Str → List Str
  | [] => [[]]
  | c :: cs =>
    match splitChar sep cs with
    | [] => [[]]
    | h :: t => if c == sep then [] :: h :: t else (c :: h) :: t

/-- JS `s.replace(pat, repl)` with a string pattern: replaces the first
occurrence only. -/
def replaceFirst (pat repl : Str) : Str → Str
  | [] => if pat.isEmpty then repl else []
  | c :: cs =>
    if pat.isPrefixOf (c :: cs) then repl ++ (c :: cs).drop pat.length
    else c :: replaceFirst pat repl cs

/-- JS `s.replace(/^http/, "ws")`: rewrite a leading `http` to `ws`. -/
def replaceHttpWs (s : Str) : Str :=
  if jsStartsWith s (S "http") then S "ws" ++ s.drop 4 else s

/-- One step of the regex `([^:]\/)\/+ -> $1` global replacement used by
`ensureValidUrl` (source lines 30-37): collapse a run of slashes that is
preceded by a non-colon character and a slash.  Fuel-indexed so the
definition is structural; `collapse` supplies enough fuel. -/
def collapseF : Nat → Str → Str
  | 0, l => l
  | _ + 1, [] => []
  | _ + 1, [c] => [c]
  | fuel + 1, a :: b :: rest =>
    if b == '/' && a != ':' && rest.head? == some '/' then
      a :: b :: collapseF fuel (rest.dropWhile (· == '/'))
    else a :: collapseF fuel (b :: rest)

/-- The double-slash collapsing regex, with enough fuel to finish. -/
def collapse (l : Str) : Str := collapseF l.length l

/-- Source lines 30-37, `ensureValidUrl`: add `http://` when no scheme is
present, then collapse duplicate slashes outside the scheme separator. -/
def ensureValidUrl (url : Str) : Str :=
  collapse (if jsStartsWith url (S "http://") || jsStartsWith url (S "https://")
            then url else S "http://" ++ url)

/-- Shallow model of WHATWG `new URL(u)` succeeding: a recognized scheme
followed by a nonempty authority that does not start with `/`. -/
def schemeRestOk (rest : Str) : Bool := !rest.isEmpty && rest.head? != some '/'

/-- Shallow model of `new URL(u)` validity for the schemes the proxy uses. -/
def jsURLValid (u : Str) : Bool :=
  if jsStartsWith u (S "http://") then schemeRestOk (u.drop 7)
  else if jsStartsWith u (S "https://") then schemeRestOk (u.drop 8)
  else if jsStartsWith u (S "ws://") then schemeRestOk (u.drop 5)
  else if jsStartsWith u (S "wss://") then schemeRestOk (u.drop 6)
  else false

/-- JS truthiness for an optional string: `undefined` and `""` are falsy. -/
def truthy : Option Str → Option Str
  | none => none
  | some s => if s.isEmpty then none else some s

/-- First-match lookup in an association list (JS object property read,
with keys inserted in order and duplicates overwritten on insert). -/
def lookup? (l : List (Str × Str)) (k : Str) : Option Str :=
  (l.find? (fun kv => kv.1 == k)).map (fun kv => kv.2)

/-- JS object property assignment on an association list: overwrite in
place when the key exists, append otherwise. -/
def setKV (l : List (Str × Str)) (k : Str) (v : Str) : List (Str × Str) :=
  if (l.find? (fun kv => kv.1 == k)).isSome then
    l.map (fun kv => if kv.1 == k then (k, v) else kv)
  else l ++ [(k, v)]

/-- Source lines 320-326 and 763-767: one `cookie.trim().split("=")` piece;
the value is the second `=`-separated part (empty when missing). -/
def parseCookiePiece (p : Str) : Str × Str :=
  match splitChar '=' (jsTrim p) with
  | [] => ([], [])
  | [k] => (k, [])
  | k :: v :: _ => (k, v)

/-- The cookie-string reduce: split on `;`, trim, split each piece on `=`. -/
def parseCookies (s : Str) : List (Str × Str) :=
  (splitChar ';' s).foldl (fun acc p =>
    let kv := parseCookiePiece p
    setKV acc kv.1 kv.2) []

/-- `cookies.auth_token` with JS truthiness. -/
def cookieAuthToken (s : Str) : Option Str :=
  truthy (lookup? (parseCookies s) (S "auth_token"))

/-! ### Percent encoding (JS `encodeURIComponent` / `URLSearchParams`) -/

/-- Uppercase hexadecimal digit. -/
def hexDigitU (n : Nat) : Char := (S "0123456789ABCDEF").getD n '0'

/-- UTF-8 bytes of a code point. -/
def utf8Bytes (n : Nat) : List Nat :=
  if n < 0x80 then [n]
  else if n < 0x800 then [0xC0 + n / 0x40, 0x80 + n % 0x40]
  else if n < 0x10000 then
    [0xE0 + n / 0x1000, 0x80 + (n / 0x40) % 0x40, 0x80 + n % 0x40]
  else
    [0xF0 + n / 0x40000, 0x80 + (n / 0x1000) % 0x40, 0x80 + (n / 0x40) % 0x40,
     0x80 + n % 0x40]

/-- `%XX` escape of one byte. -/
def percentByte (b : Nat) : Str := ['%', hexDigitU (b / 16), hexDigitU (b % 16)]

/-- Characters `encodeURIComponent` leaves unescaped. -/
def isUriUnreserved (c : Char) : Bool :=
  c.isAlphanum || c == '-' || c == '_' || c == '.' || c == '!' || c == '~' ||
    c == '*' || c == Char.ofNat 39 || c == '(' || c == ')'

/-- JS `encodeURIComponent`. -/
def encodeURIComponent (s : Str) : Str :=
  s.flatMap (fun c =>
    if isUriUnreserved c then [c] else (utf8Bytes c.toNat).flatMap percentByte)

/-- Characters `URLSearchParams` serialization leaves unescaped. -/
def isFormSafe (c : Char) : Bool :=
  c.isAlphanum || c == '*' || c == '-' || c == '.' || c == '_'

/-- `application/x-www-form-urlencoded` encoding of one string. -/
def formEncode (s : Str) : Str :=
  s.flatMap (fun c =>
    if isFormSafe c then [c]
    else if c == ' ' then ['+']
    else (utf8Bytes c.toNat).flatMap percentByte)

/-- JS `new URLSearchParams(query).toString()`. -/
def spToString : List (Str × Str) → Str
  | [] => []
  | [(k, v)] => formEncode k ++ '=' :: formEncode v
  | (k, v) :: rest => formEncode k ++ '=' :: formEncode v ++ '&' :: spToString rest

/-- JS `array.join(",")`. -/
def joinComma : List Str → Str
  | [] => []
  | [x] => x
  | x :: xs => x ++ ',' :: joinComma xs

/-- Percent decoding (ASCII model, used only to state the round-trip
property of claim C8 on comma-separated numeric IDs). -/
def hexVal (c : Char) : Option Nat :=
  if '0' ≤ c && c ≤ '9' then some (c.toNat - 48)
  else if 'A' ≤ c && c ≤ 'F' then some (c.toNat - 55)
  else if 'a' ≤ c && c ≤ 'f' then some (c.toNat - 87)
  else none

/-- ASCII percent decoder. -/
def percentDecode : Str → Str
  | '%' :: h1 :: h2 :: rest =>
    match hexVal h1, hexVal h2 with
    | some a, some b => Char.ofNat (16 * a + b) :: percentDecode rest
    | _, _ => '%' :: percentDecode (h1 :: h2 :: rest)
  | c :: rest => c :: percentDecode rest
  | [] => []

/-! ### Configuration and routing (source lines 18-27 and 180-276) -/

/-- The five configured backend base URLs plus the environment flag tested
by the outer error handler (`NODE_ENV === "development"`). -/
structure Config where
  apiBase : Str
  groupBase : Str
  notificationBase : Str
  fileBase : Str
  presenceBase : Str
  isDevelopment : Bool

/-- The documented fallback defaults of the five base URLs. -/
def defaultConfig : Config where
  apiBase := S "http://localhost:8081/api"
  groupBase := S "http://localhost:8082/api"
  notificationBase := S "http://localhost:8083/api"
  fileBase := S "http://localhost:8084"
  presenceBase := S "http://localhost:8085/api"
  isDevelopment := false

/-- The logical backend services. -/
inductive Service where
  | general | group | notification | file | presence
deriving DecidableEq, Repr

/-- Source lines 130-136: strip a duplicated `api/proxy/` or `proxy/`
routing prefix. -/
def stripProxyPrefix (p : Str) : Str :=
  if jsStartsWith p (S "api/proxy/") then p.drop 10
  else if jsStartsWith p (S "proxy/") then p.drop 6
  else p

/-- Source lines 187-192: the message-routing condition. -/
def messageCond (p : Str) : Bool :=
  jsStartsWith p (S "message") || jsIncludes p (S "/message") ||
    jsStartsWith p (S "groups/messages") ||
    (jsStartsWith p (S "group/") && jsIncludes p (S "/messages"))

/-- Service-level view of the base-URL selection of source lines 180-276:
the message condition preselects the Group service, but the following
`if`/`else if` chain (notifications / presence / non-message group /
files-media) overwrites that choice when one of its prefixes matches. -/
def classifyService (p : Str) : Service :=
  if jsStartsWith p (S "notifications") then .notification
  else if jsStartsWith p (S "presence") then .presence
  else if (jsStartsWith p (S "groups") || jsStartsWith p (S "group")) &&
      !jsIncludes p (S "message") then .group
  else if jsStartsWith p (S "files") || jsStartsWith p (S "media") then .file
  else if messageCond p then .group
  else .general

/-- Source lines 180-276: the selected base URL and the `isFileRequest`
flag, including the `ensureValidUrl` applied on the group branch and the
protocol fix-up applied inside the `presence/users` sub-branch. -/
def classifyBase (cfg : Config) (p : Str) (query : List (Str × Str)) :
    Str × Bool :=
  let b0 := if messageCond p then cfg.groupBase else cfg.apiBase
  if jsStartsWith p (S "notifications") then (cfg.notificationBase, false)
  else if jsStartsWith p (S "presence") then
    let b := cfg.presenceBase
    let b := if jsStartsWith p (S "presence/users") && !query.isEmpty &&
        (truthy (lookup? query (S "user_ids"))).isSome then
        (if jsStartsWith b (S "http://") || jsStartsWith b (S "https://") then b
         else S "http://" ++ b)
      else b
    (b, false)
  else if (jsStartsWith p (S "groups") || jsStartsWith p (S "group")) &&
      !jsIncludes p (S "message") then (ensureValidUrl cfg.groupBase, false)
  else if jsStartsWith p (S "files") || jsStartsWith p (S "media") then
    (cfg.fileBase, true)
  else (b0, false)

/-- Source line 138: the forced-method rule for `friends/add` (checked on
the raw, unstripped path). -/
def forcedMethodOf (rawPath m : Str) : Str :=
  if jsIncludes rawPath (S "friends/add") then S "POST" else m

/-- Source lines 168-172: auth endpoints exempt from cookie credentials. -/
def isAuthEndpoint (p : Str) : Bool :=
  p == S "auth/login" || p == S "login" || p == S "auth/register" ||
    p == S "register"

/-! ### URL construction (source lines 400-724) -/

/-- `baseUrl.startsWith("http") ? baseUrl : http:// + baseUrl` (the loose
protocol check used by most special branches). -/
def withProtoLoose (b : Str) : Str :=
  if jsStartsWith b (S "http") then b else S "http://" ++ b

/-- The strict protocol check used by the group and generic branches. -/
def withProtoStrict (b : Str) : Str :=
  if jsStartsWith b (S "http://") || jsStartsWith b (S "https://") then b
  else S "http://" ++ b

/-- Source lines 429-471: the `presence/users` query handling — a
comma-separated `user_ids` value is split, each ID trimmed and
percent-encoded independently, and the parts rejoined with literal
commas; a single ID goes through standard `URLSearchParams` encoding. -/
def presenceUsersUrl (u : Str) (query : List (Str × Str)) : Str :=
  match truthy (lookup? query (S "user_ids")) with
  | some uv =>
    if jsIncludes uv (S ",") then
      u ++ S "?user_ids=" ++
        joinComma ((splitChar ',' uv).map (fun i => encodeURIComponent (jsTrim i)))
    else u ++ '?' :: spToString [(S "user_ids", uv)]
  | none => u

/-- Source lines 605-622: URL construction for the file service. -/
def fileServiceUrl (baseUrl p : Str) : Str :=
  if jsStartsWith p (S "files/") then baseUrl ++ S "/api/files/" ++ p.drop 6
  else if jsStartsWith p (S "media/") then baseUrl ++ S "/api/media/" ++ p.drop 6
  else if p == S "files" then baseUrl ++ S "/api/files"
  else if p == S "media" then baseUrl ++ S "/api/media"
  else baseUrl ++ S "/api/" ++ p

/-- Source lines 558-581: singular → plural normalization for the
`/read`, `/search` and `/unread-count` message endpoints. -/
def messageMiscPath (p : Str) : Str :=
  if jsStartsWith p (S "message/") then
    replaceFirst (S "message/") (S "messages/") p
  else p

/-- Source lines 631-654: group URL construction with validity check. -/
def groupUrl (baseUrl p : Str) : Str :=
  let u := withProtoStrict baseUrl ++ '/' :: p
  if jsURLValid u then u else ensureValidUrl (withProtoStrict baseUrl ++ '/' :: p)

/-- Source lines 400-666: the special-case chain building the target URL
before query appending. -/
def coreUrl (baseUrl : Str) (isFileRequest : Bool) (p m : Str)
    (query : List (Str × Str)) : Str :=
  if p == S "messages/history" || p == S "message/history" then
    withProtoLoose baseUrl ++ S "/messages/history"
  else if jsStartsWith p (S "presence/users") then
    presenceUsersUrl (withProtoLoose baseUrl ++ S "/presence/users") query
  else if jsStartsWith p (S "message/") && (splitChar '/' p).length == 2 &&
      m == S "GET" then
    withProtoLoose baseUrl ++ S "/messages/" ++ (splitChar '/' p).getD 1 []
  else if (jsStartsWith p (S "messages/") || jsStartsWith p (S "message/")) &&
      2 ≤ (splitChar '/' p).length && m == S "DELETE" then
    withProtoLoose baseUrl ++ S "/messages/" ++ (splitChar '/' p).getD 1 []
  else if (jsStartsWith p (S "messages/") || jsStartsWith p (S "message/")) &&
      2 ≤ (splitChar '/' p).length && (m == S "PUT" || m == S "PATCH") then
    withProtoLoose baseUrl ++ S "/messages/" ++ (splitChar '/' p).getD 1 []
  else if (p == S "messages" || p == S "message") && m == S "POST" then
    withProtoLoose baseUrl ++ S "/messages"
  else if (jsStartsWith p (S "messages/") || jsStartsWith p (S "message/")) &&
      (jsIncludes p (S "/read") || jsIncludes p (S "/search") ||
        jsIncludes p (S "/unread-count")) then
    withProtoLoose baseUrl ++ '/' :: messageMiscPath p
  else if jsStartsWith p (S "presence/") then
    withProtoLoose baseUrl ++ '/' :: p
  else if isFileRequest then fileServiceUrl baseUrl p
  else if jsStartsWith p (S "presence") then baseUrl ++ '/' :: p
  else if jsStartsWith p (S "notifications") then baseUrl ++ '/' :: p
  else if jsStartsWith p (S "groups") || jsStartsWith p (S "group") then
    groupUrl baseUrl p
  else withProtoStrict baseUrl ++ '/' :: p

/-- Source lines 668-677: append the query string unless the URL already
carries one. -/
def appendQuery (u : Str) (query : List (Str × Str)) : Str :=
  if jsIncludes u (S "?") then u
  else
    let qs := spToString query
    if qs.isEmpty then u else u ++ '?' :: qs

/-- Source lines 691-724: the extra validation-and-repair pass applied when
the path mentions `messages/history`. -/
def repairMH (p u : Str) : Str :=
  if jsIncludes p (S "messages/history") then
    (if jsURLValid u then u else ensureValidUrl u)
  else u

/-- The full URL construction for a given base URL and path. -/
def buildUrl (baseUrl : Str) (isFileRequest : Bool) (p m : Str)
    (query : List (Str × Str)) : Str :=
  repairMH p (appendQuery (coreUrl baseUrl isFileRequest p m query) query)

/-- End-to-end URL resolution: base selection followed by construction. -/
def resolveUrl (cfg : Config) (p m : Str) (query : List (Str × Str)) : Str :=
  let c := classifyBase cfg p query
  buildUrl c.1 c.2 p m query

/-! ### Header construction (source lines 726-786 and 809-864) -/

/-- `token.startsWith("Bearer ") ? token : "Bearer " + token`. -/
def bearerize (a : Str) : Str :=
  if jsStartsWith a (S "Bearer ") then a else S "Bearer " ++ a

/-- Source lines 726-786: the outbound header object for the buffered
(JSON) transport: fixed Content-Type/Accept plus the Authorization header
from the inbound header, or from the `auth_token` cookie when the request
is not an auth endpoint. -/
def mainHeaders (reqHeaders : List (Str × Str)) (p : Str) :
    List (Str × Str) :=
  let base := [(S "Content-Type", S "application/json"),
               (S "Accept", S "application/json")]
  match truthy (lookup? reqHeaders (S "authorization")) with
  | some a => setKV base (S "Authorization") (bearerize a)
  | none =>
    match truthy (lookup? reqHeaders (S "cookie")), isAuthEndpoint p with
    | some c, false =>
      match cookieAuthToken c with
      | some t => setKV base (S "Authorization") (S "Bearer " ++ t)
      | none => base
    | _, _ => base

/-- Source lines 809-859: the header object handed to `sendProxy` on the
multipart branch: an Authorization header resolved from the already-built
headers, the inbound Authorization header, or the `auth_token` cookie
(with no auth-endpoint guard), followed by every inbound header except
`content-type`, `content-length` and `authorization`. -/
def multipartHeaders (hdrs reqHeaders : List (Str × Str)) :
    List (Str × Str) :=
  let auth : List (Str × Str) :=
    match lookup? hdrs (S "Authorization") with
    | some a => [(S "Authorization", a)]
    | none =>
      match truthy (lookup? reqHeaders (S "authorization")) with
      | some a => [(S "Authorization", bearerize a)]
      | none =>
        match truthy (lookup? reqHeaders (S "cookie")) with
        | some c =>
          match cookieAuthToken c with
          | some t => [(S "Authorization", S "Bearer " ++ t)]
          | none => []
        | none => []
  auth ++ reqHeaders.filter (fun kv =>
    let lk := toLowerStr kv.1
    !(lk == S "content-type") && !(lk == S "content-length") &&
      !(lk == S "authorization"))

/-- Source lines 279-282: the WebSocket-upgrade test on the `Connection`
and `Upgrade` headers. -/
def isWebSocketRequest (reqHeaders : List (Str × Str)) : Bool :=
  (match lookup? reqHeaders (S "connection") with
   | some c => jsIncludes (toLowerStr c) (S "upgrade")
   | none => false) &&
  (match lookup? reqHeaders (S "upgrade") with
   | some u => toLowerStr u == S "websocket"
   | none => false)

/-! ### Request, backend response and outcome -/

/-- JSON values (arrays are not needed by any claim and the spread of a
non-object contributes no fields, matching the `{...errorBody}` edge). -/
inductive JVal where
  | str (s : Str)
  | num (n : Int)
  | bool (b : Bool)
  | null
  | obj (fields : List (Str × JVal))

/-- JS object field update: overwrite in place, else append (spread plus
assignment keeps the first-insertion position). -/
def setField (fs : List (Str × JVal)) (k : Str) (v : JVal) :
    List (Str × JVal) :=
  if (fs.find? (fun kv => kv.1 == k)).isSome then
    fs.map (fun kv => if kv.1 == k then (k, v) else kv)
  else fs ++ [(k, v)]

/-- Field read on a JSON object. -/
def jfield (v : JVal) (k : Str) : Option JVal :=
  match v with
  | .obj fs => (fs.find? (fun kv => kv.1 == k)).map (fun kv => kv.2)
  | _ => none

/-- `{...errorBody, status, statusText}` of source lines 991-995. -/
def spreadWith (v : JVal) (st : Nat) (stx : Str) : List (Str × JVal) :=
  match v with
  | .obj fs => setField (setField fs (S "status") (.num st)) (S "statusText") (.str stx)
  | _ => [(S "status", .num st), (S "statusText", .str stx)]

/-- The inbound request body as far as the proxy observes it: absent,
readable JSON, or a body `readBody` fails on. -/
inductive ReqBody where
  | noBody
  | jsonBody (v : JVal)
  | unreadable

/-- An inbound request: method, raw catch-all path (joined with `/`),
query object, lower-cased header map, body. -/
structure Request where
  method : Str
  rawPath : Str
  query : List (Str × Str)
  headers : List (Str × Str)
  body : ReqBody

/-- The backend response consumed after `fetch`: status line, headers and
the three views of the body the handler can take (`json()`, `text()`,
`arrayBuffer()`); `jsonBody = none` models a JSON parse failure. -/
structure BackendResponse where
  status : Nat
  statusText : Str
  contentType : Option Str
  headers : List (Str × Str)
  jsonBody : Option JVal
  textBody : Str
  raw : List Nat

/-- `response.ok`. -/
def respOk (b : BackendResponse) : Bool := 200 ≤ b.status && b.status < 300

/-- `contentType && contentType.includes("application/json")`. -/
def ctIncludesJson (b : BackendResponse) : Bool :=
  match b.contentType with
  | some ct => jsIncludes ct (S "application/json")
  | none => false

/-- What the handler sends back to the caller. -/
inductive OutBody where
  | empty
  | jsonOut (v : JVal)
  | textOut (s : Str)
  | binary (bs : List Nat)

/-- How the response is produced: a direct value, a delegated `sendProxy`
call (multipart branch), or a delegated `proxyRequest` call (WebSocket
branch).  The delegated constructors record the target URL and the
explicit header set handed to the h3 primitive. -/
inductive Transport where
  | respond (b : OutBody)
  | sendProxyCall (url : Str) (headers : List (Str × Str))
  | proxyRequestCall (url : Str) (headers : List (Str × Str))

/-- The terminal per-request outcome: the explicitly set response status
(`none` when the handler leaves the default), backend headers copied onto
the response, and the transport. -/
structure Outcome where
  statusCode : Option Nat
  copiedHeaders : List (Str × Str)
  transport : Transport

/-- Source lines 948-1038: processing of the backend response — non-2xx
normalization, the file-download branch, and the generic JSON/text read. -/
def handleResponse (isFileRequest : Bool) (p m : Str) (b : BackendResponse) :
    Outcome :=
  if !respOk b then
    let errorBody : Sum Str JVal :=
      if ctIncludesJson b then
        match b.jsonBody with
        | some v => .inr v
        | none => .inl (S "Error parsing response")
      else .inl b.textBody
    match errorBody with
    | .inl s | .inr (.str s) =>
      { statusCode := some b.status, copiedHeaders := [],
        transport := .respond (.jsonOut (.obj
          [(S "error", .bool true), (S "message", .str s),
           (S "status", .num b.status), (S "statusText", .str b.statusText)])) }
    | .inr v =>
      { statusCode := some b.status, copiedHeaders := [],
        transport := .respond (.jsonOut (.obj (spreadWith v b.status b.statusText))) }
  else
    let isFileDownload := isFileRequest && jsIncludes p (S "/files/") &&
      m == S "GET" &&
      (match b.contentType with
       | some c => !c.isEmpty && !jsIncludes c (S "application/json")
       | none => false)
    if isFileDownload then
      { statusCode := none, copiedHeaders := b.headers,
        transport := .respond (.binary b.raw) }
    else
      let responseData : OutBody :=
        if ctIncludesJson b then
          match b.jsonBody with
          | some v => .jsonOut v
          | none => .jsonOut (.obj [(S "error", .str (S "Failed to parse response"))])
        else .textOut b.textBody
      { statusCode := none, copiedHeaders := [], transport := .respond responseData }

/-! ### The event handler (source lines 100-1046) -/

/-- Source lines 289-371: headers handed to `proxyRequest` on the
WebSocket-upgrade branch. -/
def wsProxyHeaders (reqHeaders : List (Str × Str)) (token : Option Str) :
    List (Str × Str) :=
  [(S "Upgrade", S "websocket"), (S "Connection", S "Upgrade")] ++
  (match token with
   | some t => [(S "Authorization", S "Bearer " ++ t)]
   | none => []) ++
  (match truthy (lookup? reqHeaders (S "origin")) with
   | some o => [(S "Origin", o)]
   | none => []) ++
  (match truthy (lookup? reqHeaders (S "sec-websocket-key")) with
   | some v => [(S "Sec-WebSocket-Key", v)]
   | none => []) ++
  (match truthy (lookup? reqHeaders (S "sec-websocket-version")) with
   | some v => [(S "Sec-WebSocket-Version", v)]
   | none => []) ++
  (match truthy (lookup? reqHeaders (S "sec-websocket-extensions")) with
   | some v => [(S "Sec-WebSocket-Extensions", v)]
   | none => [])

/-- The handler body up to (but excluding) the outer `catch`: `.error`
models a thrown exception reaching the outer boundary.  The backend
response is passed in as the value the `fetch` call would produce. -/
def handlerCore (cfg : Config) (req : Request) (b : BackendResponse) :
    Except Str Outcome :=
  let method := req.method
  if method == S "OPTIONS" then
    .ok { statusCode := some 200, copiedHeaders := [],
          transport := .respond .empty }
  else
    let pathString := stripProxyPrefix req.rawPath
    let requestHeaders := req.headers
    let query := req.query
    let baseUrl := (classifyBase cfg pathString query).1
    let isFileRequest := (classifyBase cfg pathString query).2
    let wsOutcome : Option Outcome :=
      if isWebSocketRequest requestHeaders then
        let wsTarget :=
          if jsStartsWith pathString (S "messages/ws") then
            replaceHttpWs cfg.groupBase ++ S "/messages/ws"
          else if jsStartsWith pathString (S "presence/ws") then
            replaceHttpWs cfg.presenceBase ++ S "/presence/ws"
          else []
        if !wsTarget.isEmpty then
          let targetUrl :=
            if query.isEmpty then wsTarget else wsTarget ++ '?' :: spToString query
          let token :=
            match truthy (lookup? query (S "token")) with
            | some t => some t
            | none =>
              match truthy (lookup? requestHeaders (S "cookie")) with
              | some c => cookieAuthToken c
              | none => none
          some { statusCode := none, copiedHeaders := [],
                 transport := .proxyRequestCall targetUrl
                   (wsProxyHeaders requestHeaders token) }
        else none
      else none
    match wsOutcome with
    | some o => .ok o
    | none =>
      if jsIncludes pathString (S "presence/ws") then
        match truthy (lookup? query (S "token")) with
        | none => .error (S "No token provided for WebSocket connection")
        | some t =>
          let wsBaseUrl := replaceFirst (S "/api") [] (replaceHttpWs cfg.presenceBase)
          .ok { statusCode := none, copiedHeaders := [],
                transport := .respond (.jsonOut (.obj
                  [(S "wsUrl", .str (wsBaseUrl ++ S "/presence/ws?token=" ++ t))])) }
      else
        let url := buildUrl baseUrl isFileRequest pathString method query
        let hdrs := mainHeaders requestHeaders pathString
        let finishFetch : Except Str Outcome :=
          if jsURLValid url then
            .ok (handleResponse isFileRequest pathString method b)
          else .error (S "Cannot create a valid URL: " ++ url)
        if method == S "POST" || method == S "PUT" || method == S "PATCH" ||
            method == S "DELETE" then
          let isMultipart :=
            match lookup? requestHeaders (S "content-type") with
            | some ct => jsIncludes ct (S "multipart/form-data")
            | none => false
          if isMultipart then
            if jsURLValid url then
              .ok { statusCode := none, copiedHeaders := [],
                    transport := .sendProxyCall url
                      (multipartHeaders hdrs requestHeaders) }
            else .error (S "Failed to proxy file upload")
          else
            match req.body with
            | .unreadable => .error (S "Failed to process request body")
            | _ => finishFetch
        else finishFetch

/-- Source lines 1041-1045: the body produced by the outer catch; the
`stack` field is present only under `NODE_ENV === "development"`. -/
def proxyErrorBody (cfg : Config) (msg : Str) : JVal :=
  .obj ([(S "error", .str (S "Proxy Error")), (S "message", .str msg)] ++
    (if cfg.isDevelopment then [(S "stack", .str (S "stack trace"))] else []))

/-- The full handler: `handlerCore` wrapped in the outer `try`/`catch` of
source lines 101 and 1039-1046.  The catch sets no status code. -/
def handler (cfg : Config) (req : Request) (b : BackendResponse) : Outcome :=
  match handlerCore cfg req b with
  | .ok o => o
  | .error msg =>
    { statusCode := none, copiedHeaders := [],
      transport := .respond (.jsonOut (proxyErrorBody cfg msg)) }

/-! ### Predicates used by the claim statements -/

/-- Whether a character list contains two adjacent slashes. -/
def hasDS : Str → Bool
  | [] => false
  | [_] => false
  | a :: b :: r => (a == '/' && b == '/') || hasDS (b :: r)

/-- Drop a recognized scheme-plus-separator prefix from a URL, so that a
remaining `//` is a duplicate path separator outside the scheme. -/
def stripScheme (u : Str) : Str :=
  if jsStartsWith u (S "http://") then u.drop 7
  else if jsStartsWith u (S "https://") then u.drop 8
  else if jsStartsWith u (S "ws://") then u.drop 5
  else if jsStartsWith u (S "wss://") then u.drop 6
  else u

/-- The URL contains a duplicate slash outside the scheme separator. -/
def dsOutsideScheme (u : Str) : Bool := hasDS (stripScheme u)

/-- A list free of slash characters. -/
def slashFree (l : Str) : Prop := ∀ c ∈ l, c ≠ '/'

/-- A well-formed configured base URL: an `http://` scheme followed by a
nonempty remainder with no duplicate slash, not starting and not ending
with a slash. -/
def goodBase (b : Str) : Prop :=
  ∃ r, b = S "http://" ++ r ∧ hasDS r = false ∧ r ≠ [] ∧
    r.head? ≠ some '/' ∧ r.getLast? ≠ some '/'

/-- All five configured base URLs are well formed. -/
def goodConfig (cfg : Config) : Prop :=
  goodBase cfg.apiBase ∧ goodBase cfg.groupBase ∧ goodBase cfg.notificationBase ∧
    goodBase cfg.fileBase ∧ goodBase cfg.presenceBase

/-- The substring after the first occurrence of `pat` (used to read a
query parameter back out of a resolved URL). -/
def afterFirst (pat : Str) : Str → Str
  | [] => []
  | c :: cs => if pat.isPrefixOf (c :: cs) then (c :: cs).drop pat.length
               else afterFirst pat cs

/-! ### Concrete example inputs used by counterexamples and witnesses -/

/-- The default configuration with a trailing slash on the general API
base URL (configuration is external input; base URLs come from the
environment). -/
def cfgTrailingSlash : Config :=
  { defaultConfig with apiBase := S "http://localhost:8081/api/" }

/-- A neutral 200 JSON backend response. -/
def bJsonOk : BackendResponse where
  status := 200
  statusText := S "OK"
  contentType := some (S "application/json")
  headers := []
  jsonBody := some (.obj [])
  textBody := []
  raw := []

/-- An upstream 404 JSON error response with body `{"message":"not found"}`. -/
def b404ex : BackendResponse where
  status := 404
  statusText := S "Not Found"
  contentType := some (S "application/json")
  headers := []
  jsonBody := some (.obj [(S "message", .str (S "not found"))])
  textBody := []
  raw := []

/-- An upstream 503 plain-text error response. -/
def b503ex : BackendResponse where
  status := 503
  statusText := S "Service Unavailable"
  contentType := some (S "text/plain")
  headers := []
  jsonBody := none
  textBody := S "down"
  raw := []

/-- A 200 `image/png` backend response with binary payload. -/
def bPngEx : BackendResponse where
  status := 200
  statusText := S "OK"
  contentType := some (S "image/png")
  headers := [(S "content-type", S "image/png"), (S "content-length", S "4")]
  jsonBody := none
  textBody := S "PNG"
  raw := [137, 80, 78, 71]

/-- A multipart POST to `files` carrying no credentials. -/
def reqMultipartFiles : Request where
  method := S "POST"
  rawPath := S "files"
  query := []
  headers := [(S "content-type", S "multipart/form-data; boundary=XBOUND"),
              (S "accept", S "*/*")]
  body := .noBody

/-- A multipart POST to `auth/login` carrying only a cookie token. -/
def reqMultipartLogin : Request where
  method := S "POST"
  rawPath := S "auth/login"
  query := []
  headers := [(S "content-type", S "multipart/form-data; boundary=XBOUND"),
              (S "cookie", S "auth_token=tok123")]
  body := .noBody

/-- A WebSocket upgrade request to `messages/ws` carrying an inbound
Authorization header but no `token` query parameter and no cookie. -/
def reqWsUpgradeAuth : Request where
  method := S "GET"
  rawPath := S "messages/ws"
  query := []
  headers := [(S "connection", S "Upgrade"), (S "upgrade", S "websocket"),
              (S "authorization", S "abc.def.ghi")]
  body := .noBody

/-- A plain GET to `presence/ws` with no `token` query parameter. -/
def reqPresenceWsNoToken : Request where
  method := S "GET"
  rawPath := S "presence/ws"
  query := []
  headers := []
  body := .noBody

/-- An OPTIONS request to `presence/ws` carrying a `token` parameter. -/
def reqPresenceWsOptions : Request where
  method := S "OPTIONS"
  rawPath := S "presence/ws"
  query := [(S "token", S "abc")]
  headers := []
  body := .noBody

/-- A plain GET to `presence/ws` with a `token` query parameter. -/
def reqPresenceWsToken : Request where
  method := S "GET"
  rawPath := S "presence/ws"
  query := [(S "token", S "tok")]
  headers := []
  body := .noBody

/-! ## Lemma toolkit -/

theorem jsStartsWith_iff {s p : Str} : jsStartsWith s p = true ↔ p <+: s := by
  simp [jsStartsWith]

theorem jsIncludes_iff {s p : Str} : jsIncludes s p = true ↔ p <:+: s := by
  simp [jsIncludes]

theorem jsStartsWith_append (p t : Str) : jsStartsWith (p ++ t) p = true := by
  rw [jsStartsWith_iff]; exact List.prefix_append p t

/-- Two prefixes of the same list are comparable; incompatible literals
cannot both be prefixes. -/
theorem prefix_incompat {p1 p2 l : Str} (h1 : jsStartsWith l p1 = true)
    (h2 : jsStartsWith l p2 = true) (h12 : p1.isPrefixOf p2 = false)
    (h21 : p2.isPrefixOf p1 = false) : False := by
  rw [jsStartsWith_iff] at h1 h2
  rcases List.prefix_or_prefix_of_prefix h1 h2 with h | h
  · rw [← List.isPrefixOf_iff_prefix] at h
    exact absurd h (by simp [h12])
  · rw [← List.isPrefixOf_iff_prefix] at h
    exact absurd h (by simp [h21])

theorem jsIncludes_of_startsWith {l p : Str} (h : jsStartsWith l p = true) :
    jsIncludes l p = true := by
  rw [jsStartsWith_iff] at h
  rw [jsIncludes_iff]
  exact h.isInfix

theorem jsIncludes_of_includes_trans {l p q : Str} (h : jsIncludes l p = true)
    (hq : q <:+: p) : jsIncludes l q = true := by
  rw [jsIncludes_iff] at h ⊢
  exact hq.trans h

/-! ### Double-slash lemmas -/

theorem hasDS_nil : hasDS [] = false := rfl

theorem hasDS_cons_cons {a b : Char} {r : Str} :
    hasDS (a :: b :: r) = ((a == '/' && b == '/') || hasDS (b :: r)) := rfl

theorem hasDS_cons_false {a : Char} {l : Str} (h : hasDS (a :: l) = false) :
    hasDS l = false := by
  cases l with
  | nil => rfl
  | cons b r =>
    rw [hasDS_cons_cons, Bool.or_eq_false_iff] at h
    exact h.2

theorem hasDS_tail_head {a : Char} {l : Str} (h : hasDS (a :: l) = false)
    (ha : a = '/') : l.head? ≠ some '/' := by
  cases l with
  | nil => simp
  | cons b r =>
    rw [hasDS_cons_cons, Bool.or_eq_false_iff] at h
    subst ha
    intro hb
    simp only [List.head?_cons, Option.some.injEq] at hb
    subst hb
    simp at h

theorem hasDS_append_false {a b : Str} (ha : hasDS a = false)
    (hb : hasDS b = false)
    (hab : a.getLast? = some '/' → b.head? ≠ some '/') :
    hasDS (a ++ b) = false := by
  induction a with
  | nil => simpa using hb
  | cons x xs ih =>
    cases xs with
    | nil =>
      cases b with
      | nil => rfl
      | cons y ys =>
        simp only [List.cons_append, List.nil_append, hasDS_cons_cons]
        rw [Bool.or_eq_false_iff]
        refine ⟨?_, hb⟩
        by_cases hx : x = '/'
        · have := hab (by simp [hx])
          have hy : y ≠ '/' := by
            intro hy; exact this (by simp [hy])
          simp [hy]
        · simp [hx]
    | cons z zs =>
      simp only [List.cons_append, hasDS_cons_cons] at ha ⊢
      rw [Bool.or_eq_false_iff] at ha
      rw [Bool.or_eq_false_iff]
      refine ⟨ha.1, ?_⟩
      have := ih ha.2 (by simpa using hab)
      simpa using this

theorem hasDS_append_right {a b : Str} (h : hasDS (a ++ b) = false) :
    hasDS b = false := by
  induction a with
  | nil => simpa using h
  | cons x xs ih =>
    apply ih
    cases xs with
    | nil => exact hasDS_cons_false (by simpa using h)
    | cons z zs => exact hasDS_cons_false (by simpa using h)

theorem hasDS_append_boundary {a b : Str} (h : hasDS (a ++ b) = false)
    (ha : a.getLast? = some '/') : b.head? ≠ some '/' := by
  induction a with
  | nil => simp at ha
  | cons x xs ih =>
    cases xs with
    | nil =>
      simp only [List.getLast?_singleton, Option.some.injEq] at ha
      exact hasDS_tail_head (by simpa using h) ha
    | cons z zs =>
      refine ih ?_ (by simpa using ha)
      exact hasDS_cons_false (by simpa using h)

theorem hasDS_drop {l : Str} (h : hasDS l = false) (n : Nat) :
    hasDS (l.drop n) = false := by
  have := List.take_append_drop n l
  rw [← this] at h
  exact hasDS_append_right h

theorem hasDS_false_of_slashFree {l : Str} (h : slashFree l) :
    hasDS l = false := by
  induction l with
  | nil => rfl
  | cons x xs ih =>
    cases xs with
    | nil => rfl
    | cons y ys =>
      rw [hasDS_cons_cons, Bool.or_eq_false_iff]
      have hx : x ≠ '/' := h x (by simp)
      refine ⟨by simp [hx], ih ?_⟩
      intro c hc
      exact h c (by simp [hc])

theorem slashFree_head {l : Str} (h : slashFree l) : l.head? ≠ some '/' := by
  cases l with
  | nil => simp
  | cons x xs =>
    have := h x (by simp)
    simp [this]

theorem slashFree_append {a b : Str} (ha : slashFree a) (hb : slashFree b) :
    slashFree (a ++ b) := by
  intro c hc
  rcases List.mem_append.1 hc with h | h
  · exact ha c h
  · exact hb c h

theorem slashFree_cons {c : Char} {l : Str} (hc : c ≠ '/') (hl : slashFree l) :
    slashFree (c :: l) := by
  intro d hd
  rcases List.mem_cons.1 hd with h | h
  · exact h ▸ hc
  · exact hl d h

/-! ### Slash-freedom of the encoders -/

theorem hexDigitU_ne_slash (n : Nat) : hexDigitU n ≠ '/' := by
  unfold hexDigitU List.getD
  cases h : (S "0123456789ABCDEF").get? n with
  | none => simp
  | some c =>
    have hc : c ∈ S "0123456789ABCDEF" := List.get?_mem h
    have : ∀ d ∈ S "0123456789ABCDEF", d ≠ '/' := by decide
    simp only [h, Option.getD_some]
    exact this c hc

theorem slashFree_percentByte (b : Nat) : slashFree (percentByte b) := by
  unfold percentByte
  exact slashFree_cons (by decide)
    (slashFree_cons (hexDigitU_ne_slash _) (slashFree_cons (hexDigitU_ne_slash _)
      (by intro c hc; simp at hc)))

theorem slashFree_percentBytes (bs : List Nat) :
    slashFree (bs.flatMap percentByte) := by
  intro c hc
  rcases List.mem_flatMap.1 hc with ⟨b, _, hb⟩
  exact slashFree_percentByte b c hb

theorem slashFree_encodeURIComponent (s : Str) :
    slashFree (encodeURIComponent s) := by
  intro c hc
  rcases List.mem_flatMap.1 hc with ⟨d, _, hd⟩
  by_cases h : isUriUnreserved d = true
  · simp only [encodeURIComponent, h, if_true] at hd
    simp only [List.mem_singleton] at hd
    subst hd
    intro hslash
    rw [hslash] at h
    exact absurd h (by decide)
  · rw [if_neg h] at hd
    exact slashFree_percentBytes _ c hd

theorem slashFree_formEncode (s : Str) : slashFree (formEncode s) := by
  intro c hc
  rcases List.mem_flatMap.1 hc with ⟨d, _, hd⟩
  by_cases h : isFormSafe d = true
  · simp only [formEncode, h, if_true] at hd
    simp only [List.mem_singleton] at hd
    subst hd
    intro hslash
    rw [hslash] at h
    exact absurd h (by decide)
  · rw [if_neg h] at hd
    by_cases hsp : (d == ' ') = true
    · simp only [hsp, if_true, List.mem_singleton] at hd
      subst hd; decide
    · rw [if_neg hsp] at hd
      exact slashFree_percentBytes _ c hd

theorem slashFree_spToString (q : List (Str × Str)) :
    slashFree (spToString q) := by
  induction q with
  | nil => intro c hc; simp [spToString] at hc
  | cons kv rest ih =>
    obtain ⟨k, v⟩ := kv
    cases rest with
    | nil =>
      show slashFree (formEncode k ++ '=' :: formEncode v)
      refine slashFree_append (slashFree_formEncode k)
        (slashFree_cons ?_ (slashFree_formEncode v))
      decide
    | cons kv2 rest2 =>
      show slashFree ((formEncode k ++ '=' :: formEncode v) ++ '&' :: spToString (kv2 :: rest2))
      refine slashFree_append (slashFree_append (slashFree_formEncode k)
        (slashFree_cons ?_ (slashFree_formEncode v))) (slashFree_cons ?_ ih) <;> decide

theorem slashFree_joinComma {ids : List Str} (h : ∀ x ∈ ids, slashFree x) :
    slashFree (joinComma ids) := by
  induction ids with
  | nil => intro c hc; simp [joinComma] at hc
  | cons x rest ih =>
    cases rest with
    | nil => simpa [joinComma] using h x (by simp)
    | cons y rest2 =>
      refine slashFree_append (h x (by simp)) (slashFree_cons (by decide) ?_)
      exact ih (fun z hz => h z (by simp [hz]))

/-! ### splitChar and replaceFirst -/

theorem splitChar_sep_not_mem (sep : Char) (l : Str) :
    ∀ x ∈ splitChar sep l, ∀ c ∈ x, c ≠ sep := by
  induction l with
  | nil =>
    intro x hx c hc
    simp [splitChar] at hx
    subst hx
    simp at hc
  | cons a as ih =>
    intro x hx c hc
    rcases hsplit : splitChar sep as with _ | ⟨h, t⟩
    · simp only [splitChar, hsplit, List.mem_singleton] at hx
      subst hx; simp at hc
    · simp only [splitChar, hsplit] at hx
      by_cases ha : (a == sep) = true
      · rw [if_pos ha] at hx
        rcases List.mem_cons.1 hx with rfl | hx2
        · simp at hc
        · exact ih x (hsplit ▸ hx2) c hc
      · rw [if_neg ha] at hx
        rcases List.mem_cons.1 hx with rfl | hx2
        · rcases List.mem_cons.1 hc with rfl | hc2
          · simpa using ha
          · exact ih h (by rw [hsplit]; simp) c hc2
        · exact ih x (by rw [hsplit]; simp [hx2]) c hc

theorem splitChar_getD_slashFree (p : Str) (n : Nat) :
    slashFree ((splitChar '/' p).getD n []) := by
  unfold List.getD
  cases h : (splitChar '/' p).get? n with
  | none => intro c hc; simp at hc
  | some x =>
    have hx : x ∈ splitChar '/' p := List.get?_mem h
    simp only [h, Option.getD_some]
    exact splitChar_sep_not_mem '/' p x hx

theorem replaceFirst_of_isPrefixOf {pat repl l : Str} (hl : l ≠ [])
    (h : pat.isPrefixOf l = true) :
    replaceFirst pat repl l = repl ++ l.drop pat.length := by
  cases l with
  | nil => exact absurd rfl hl
  | cons c cs => simp [replaceFirst, h]

/-! ### collapse and URL helper lemmas -/

theorem collapseF_keep : ∀ (f : Nat) (l : Str), hasDS l = false →
    collapseF f l = l := by
  intro f
  induction f with
  | zero => intro l _; rfl
  | succ g ih =>
    intro l h
    match l with
    | [] => rfl
    | [c] => rfl
    | a :: b :: r =>
      by_cases hb : (b == '/') = true
      · have hb' : b = '/' := by simpa using hb
        subst hb'
        have hr : r.head? ≠ some '/' := by
          have h2 : hasDS ('/' :: r) = false := hasDS_cons_false h
          exact hasDS_tail_head h2 rfl
        have hcond : (('/' : Char) == '/' && a != ':' && r.head? == some '/') = false := by
          have : (r.head? == some '/') = false := by
            simpa using hr
          simp [this]
        simp only [collapseF, hcond, if_false, Bool.false_eq_true]
        rw [ih ('/' :: r) (hasDS_cons_false h)]
      · have hcond : ((b == '/') && a != ':' && r.head? == some '/') = false := by
          simp [hb]
        simp only [collapseF, hcond, if_false, Bool.false_eq_true]
        rw [ih (b :: r) (hasDS_cons_false h)]

theorem collapseF_http (f : Nat) (r : Str) (h1 : hasDS r = false)
    (h2 : r.head? ≠ some '/') :
    collapseF f (S "http://" ++ r) = S "http://" ++ r := by
  match f with
  | 0 => rfl
  | 1 => rfl
  | 2 => rfl
  | 3 => rfl
  | 4 => rfl
  | 5 => rfl
  | g + 6 =>
    have e1 : collapseF (g + 6) (S "http://" ++ r) =
        'h' :: 't' :: 't' :: 'p' :: ':' :: collapseF (g + 1) ('/' :: '/' :: r) := rfl
    rw [e1]
    have hcond : (('/' : Char) == '/' && ('/' : Char) != ':' && r.head? == some '/') = false := by
      have : (r.head? == some '/') = false := by simpa using h2
      simp [this]
    have e2 : collapseF (g + 1) ('/' :: '/' :: r) = '/' :: collapseF g ('/' :: r) := by
      simp only [collapseF, hcond, if_false, Bool.false_eq_true]
    rw [e2]
    have e3 : collapseF g ('/' :: r) = '/' :: r := by
      cases r with
      | nil => cases g <;> rfl
      | cons c r2 =>
        cases g with
        | zero => rfl
        | succ g2 =>
          have hc : c ≠ '/' := by
            intro hc; exact h2 (by simp [hc])
          have hcond2 : ((c == '/') && ('/' : Char) != ':' && r2.head? == some '/') = false := by
            simp [hc]
          simp only [collapseF, hcond2, if_false, Bool.false_eq_true]
          rw [collapseF_keep g2 (c :: r2) h1]
    rw [e3]
    rfl

theorem ensureValidUrl_http {r : Str} (h1 : hasDS r = false)
    (h2 : r.head? ≠ some '/') :
    ensureValidUrl (S "http://" ++ r) = S "http://" ++ r := by
  unfold ensureValidUrl
  rw [jsStartsWith_append]
  simp only [Bool.true_or, if_true]
  exact collapseF_http _ r h1 h2

theorem stripScheme_http (t : Str) : stripScheme (S "http://" ++ t) = t := by
  unfold stripScheme
  rw [jsStartsWith_append]
  simp only [if_true]
  exact List.drop_left' rfl

theorem head?_append_ne_nil {a b : Str} (ha : a ≠ []) :
    (a ++ b).head? = a.head? := by
  cases a with
  | nil => exact absurd rfl ha
  | cons x xs => rfl

theorem jsURLValid_http {t : Str} (h1 : t ≠ []) (h2 : t.head? ≠ some '/') :
    jsURLValid (S "http://" ++ t) = true := by
  unfold jsURLValid
  rw [jsStartsWith_append]
  simp only [if_true]
  rw [show (S "http://" ++ t).drop 7 = t from List.drop_left' rfl]
  unfold schemeRestOk
  have he : t.isEmpty = false := by
    cases t with
    | nil => exact absurd rfl h1
    | cons x xs => rfl
  have hh : (t.head? != some '/') = true := by simpa using h2
  simp [he, hh]

theorem withProtoLoose_http (r : Str) :
    withProtoLoose (S "http://" ++ r) = S "http://" ++ r := by
  unfold withProtoLoose
  have : jsStartsWith (S "http://" ++ r) (S "http") = true := by
    rw [jsStartsWith_iff]
    exact ⟨S "://" ++ r, rfl⟩
  rw [this]
  simp

theorem withProtoStrict_http (r : Str) :
    withProtoStrict (S "http://" ++ r) = S "http://" ++ r := by
  unfold withProtoStrict
  rw [jsStartsWith_append]
  simp

theorem hasDS_cons_of {c : Char} {l : Str} (hl : hasDS l = false)
    (hcl : c = '/' → l.head? ≠ some '/') : hasDS (c :: l) = false := by
  cases l with
  | nil => rfl
  | cons d r =>
    rw [hasDS_cons_cons, Bool.or_eq_false_iff]
    refine ⟨?_, hl⟩
    by_cases hc : c = '/'
    · have hd : d ≠ '/' := by
        intro hd; exact hcl hc (by simp [hd])
      simp [hd]
    · simp [hc]

theorem startsWith_ne_false {p q : Str} (hp : jsStartsWith p q = true)
    {w : Str} (h1 : w.isPrefixOf q = false) (h2 : q.isPrefixOf w = false) :
    jsStartsWith p w = false := by
  cases hw : jsStartsWith p w with
  | false => rfl
  | true => exact (prefix_incompat hp hw h2 h1).elim

theorem lookup?_cons_eq (k v : Str) (l : List (Str × Str)) :
    lookup? ((k, v) :: l) k = some v := by
  simp [lookup?, List.find?]

/-! ## Claim C1 -/

/-- C1 (counterexample): the path `notifications/messages` contains
`/message`, is not a `group(s)/*` path, yet classification selects the
Notification service, not the Group service — the `notifications` prefix
rule overrides the message rule, contradicting the claimed priority. -/
theorem C1_cex :
    jsIncludes (S "notifications/messages") (S "/message") = true ∧
    jsStartsWith (S "notifications/messages") (S "group") = false ∧
    classifyService (S "notifications/messages") = Service.notification := by
  refine ⟨by decide, by decide, by decide⟩

/-- C1 (amended): a path with a `message`/`messages` prefix always
classifies to the Group service; a path containing `/message` classifies
to the Group service provided it does not also start with
`notifications`, `presence`, `files` or `media` (those prefix rules are
applied later and override the message rule); in particular the message
rule takes priority over the group and file-path rules only when no other
service prefix matches. -/
theorem C1_amended :
    (∀ p : Str, jsStartsWith p (S "message") = true →
      classifyService p = Service.group) ∧
    (∀ p : Str, jsIncludes p (S "/message") = true →
      jsStartsWith p (S "notifications") = false →
      jsStartsWith p (S "presence") = false →
      jsStartsWith p (S "files") = false →
      jsStartsWith p (S "media") = false →
      classifyService p = Service.group) := by
  constructor
  · intro p h
    have hn : jsStartsWith p (S "notifications") = false :=
      startsWith_ne_false h (by decide) (by decide)
    have hpr : jsStartsWith p (S "presence") = false :=
      startsWith_ne_false h (by decide) (by decide)
    have hf : jsStartsWith p (S "files") = false :=
      startsWith_ne_false h (by decide) (by decide)
    have hme : jsStartsWith p (S "media") = false :=
      startsWith_ne_false h (by decide) (by decide)
    have hm : jsIncludes p (S "message") = true := jsIncludes_of_startsWith h
    simp [classifyService, messageCond, hn, hpr, hf, hme, hm, h]
  · intro p h hn hpr hf hme
    have hm : jsIncludes p (S "message") = true :=
      jsIncludes_of_includes_trans h (by decide)
    simp [classifyService, messageCond, hn, hpr, hf, hme, hm, h]

/-- C1 (witness): both parts of the amended claim at concrete paths. -/
theorem C1_witness :
    classifyService (S "messages/history") = Service.group ∧
    classifyService (S "group/7/messages") = Service.group := by
  constructor
  · exact C1_amended.1 (S "messages/history") (by decide)
  · exact C1_amended.2 (S "group/7/messages") (by decide) (by decide) (by decide)
      (by decide) (by decide)

/-! ## Claim C8 -/

/-- C8 (confirmed): resolving `presence/users?user_ids=1,2,3` yields a URL
whose `user_ids` query value, split on literal commas with every component
percent-decoded independently, is exactly the ordered list
`["1","2","3"]`; the value keeps its literal commas (a whole-string
re-encoding would have produced `1%2C2%2C3`). -/
theorem C8_confirmed :
    resolveUrl defaultConfig (S "presence/users") (S "GET")
        [(S "user_ids", S "1,2,3")] =
      S "http://localhost:8085/api/presence/users?user_ids=1,2,3" ∧
    (splitChar ',' (afterFirst (S "?user_ids=")
        (resolveUrl defaultConfig (S "presence/users") (S "GET")
          [(S "user_ids", S "1,2,3")]))).map percentDecode =
      [S "1", S "2", S "3"] ∧
    encodeURIComponent (S "1,2,3") = S "1%2C2%2C3" := by
  refine ⟨rfl, rfl, rfl⟩

/-! ## Claim C5 -/

/-- C5 (confirmed): for every non-2xx backend response, when the
Content-Type includes `application/json` and the body parses to a JSON
object, the proxy emits the backend status code with the parsed object
augmented with `status` and `statusText`; when the Content-Type is not
JSON the body is `{error: true, message: <text>, status, statusText}`. -/
theorem C5_confirmed (fr : Bool) (p m : Str) (b : BackendResponse)
    (hok : respOk b = false) :
    (∀ fs, ctIncludesJson b = true → b.jsonBody = some (.obj fs) →
      handleResponse fr p m b =
        { statusCode := some b.status, copiedHeaders := [],
          transport := .respond (.jsonOut (.obj
            (setField (setField fs (S "status") (.num b.status))
              (S "statusText") (.str b.statusText)))) }) ∧
    (ctIncludesJson b = false →
      handleResponse fr p m b =
        { statusCode := some b.status, copiedHeaders := [],
          transport := .respond (.jsonOut (.obj
            [(S "error", .bool true), (S "message", .str b.textBody),
             (S "status", .num b.status), (S "statusText", .str b.statusText)])) }) := by
  constructor
  · intro fs hct hj
    simp [handleResponse, hok, hct, hj, spreadWith]
  · intro hct
    simp [handleResponse, hok, hct]

/-- C5 (witness): the upstream 404 JSON error `{"message":"not found"}` is
normalized to `{"message":"not found","status":404,"statusText":"Not
Found"}` with outbound status 404, and a plain-text 503 is wrapped in the
`{error, message, status, statusText}` shape. -/
theorem C5_witness :
    respOk b404ex = false ∧
    handleResponse false (S "users") (S "GET") b404ex =
      { statusCode := some 404, copiedHeaders := [],
        transport := .respond (.jsonOut (.obj
          [(S "message", .str (S "not found")), (S "status", .num 404),
           (S "statusText", .str (S "Not Found"))])) } ∧
    handleResponse false (S "users") (S "GET") b503ex =
      { statusCode := some 503, copiedHeaders := [],
        transport := .respond (.jsonOut (.obj
          [(S "error", .bool true), (S "message", .str (S "down")),
           (S "status", .num 503), (S "statusText", .str (S "Service Unavailable"))])) } := by
  refine ⟨rfl, ?_, ?_⟩
  · exact (C5_confirmed false (S "users") (S "GET") b404ex rfl).1
      [(S "message", .str (S "not found"))] rfl rfl
  · exact (C5_confirmed false (S "users") (S "GET") b503ex rfl).2 rfl

/-! ## Claim C7 -/

/-- C7 (counterexample): a GET for `files/a.png` routed to the File
service with backend Content-Type `image/png` does NOT take the raw-bytes
branch: the condition requires the substring `/files/`, which a normalized
top-level `files/...` path (no leading slash) never contains, so the
response body is text-decoded and no backend header is copied. -/
theorem C7_cex :
    respOk bPngEx = true ∧
    bPngEx.contentType = some (S "image/png") ∧
    handleResponse true (S "files/a.png") (S "GET") bPngEx =
      { statusCode := none, copiedHeaders := [],
        transport := .respond (.textOut (S "PNG")) } := by
  refine ⟨rfl, rfl, rfl⟩

/-- C7 (amended): the raw-bytes-plus-header-copy branch fires only for
File-service GET requests whose path contains the substring `/files/`
(e.g. `media/files/x`); since normalized paths carry no leading slash,
plain `files/...`, bare `files` and `media/...` responses instead take the
generic text/JSON path with no header copy.  Under the `/files/`
condition the raw bytes are returned unmodified and every backend
response header is copied. -/
theorem C7_amended (fr : Bool) (p m : Str) (b : BackendResponse)
    (hfr : fr = true) (hp : jsIncludes p (S "/files/") = true)
    (hm : m = S "GET") (hok : respOk b = true)
    (hct : ∃ c, b.contentType = some c ∧ c ≠ [] ∧
      jsIncludes c (S "application/json") = false) :
    handleResponse fr p m b =
      { statusCode := none, copiedHeaders := b.headers,
        transport := .respond (.binary b.raw) } := by
  obtain ⟨c, hc, hcne, hcj⟩ := hct
  have hce : c.isEmpty = false := by
    cases c with
    | nil => exact absurd rfl hcne
    | cons x xs => rfl
  subst hfr hm
  simp [handleResponse, hok, hp, hc, hce, hcj]

/-- C7 (witness): a GET for `media/files/a.png` (whose path does contain
`/files/`) with an `image/png` backend response streams the raw bytes and
copies the backend headers. -/
theorem C7_witness :
    handleResponse true (S "media/files/a.png") (S "GET") bPngEx =
      { statusCode := none, copiedHeaders := bPngEx.headers,
        transport := .respond (.binary bPngEx.raw) } := by
  exact C7_amended true (S "media/files/a.png") (S "GET") bPngEx rfl (by decide)
    rfl rfl ⟨S "image/png", rfl, by decide, by decide⟩

/-! ## Claim C3 -/

/-- C3 (code bug): a multipart POST to `files` is handed to `sendProxy`
with a header set from which `content-type` has been explicitly filtered
out, so the multipart boundary is not passed through verbatim on the
outbound request, contradicting both the claim and the code's own comment
that the streamed request will carry the proper boundary. -/
theorem C3_bug :
    lookup? reqMultipartFiles.headers (S "content-type") =
      some (S "multipart/form-data; boundary=XBOUND") ∧
    handler defaultConfig reqMultipartFiles bJsonOk =
      { statusCode := none, copiedHeaders := [],
        transport := .sendProxyCall (S "http://localhost:8084/api/files")
          [(S "accept", S "*/*")] } ∧
    (multipartHeaders (mainHeaders reqMultipartFiles.headers (S "files"))
        reqMultipartFiles.headers).find?
      (fun kv => toLowerStr kv.1 == S "content-type") = none := by
  refine ⟨rfl, rfl, rfl⟩

/-! ## Claim C4 -/

/-- C4 (counterexample): a multipart POST to exactly `auth/login` with no
Authorization header and an `auth_token` cookie reaches the streamed
multipart branch, whose cookie fallback has no auth-endpoint guard: the
outbound `sendProxy` header set carries `Authorization: Bearer tok123`
derived from the cookie. -/
theorem C4_cex :
    isAuthEndpoint (S "auth/login") = true ∧
    lookup? reqMultipartLogin.headers (S "authorization") = none ∧
    handler defaultConfig reqMultipartLogin bJsonOk =
      { statusCode := none, copiedHeaders := [],
        transport := .sendProxyCall (S "http://localhost:8081/api/auth/login")
          [(S "Authorization", S "Bearer tok123"),
           (S "cookie", S "auth_token=tok123")] } := by
  refine ⟨rfl, rfl, rfl⟩

/-- C4 (amended): for an auth-endpoint path with no inbound Authorization
header, the buffered-JSON transport attaches no Authorization header
derived from the cookie; the streamed multipart branch, however, lacks
the auth-endpoint guard and does attach `Bearer <auth_token>` from the
cookie. -/
theorem C4_amended (h : List (Str × Str)) (p : Str)
    (hep : isAuthEndpoint p = true)
    (hna : truthy (lookup? h (S "authorization")) = none) :
    lookup? (mainHeaders h p) (S "Authorization") = none ∧
    (∀ c t, truthy (lookup? h (S "cookie")) = some c →
      cookieAuthToken c = some t →
      lookup? (multipartHeaders (mainHeaders h p) h) (S "Authorization") =
        some (S "Bearer " ++ t)) := by
  have hmain : mainHeaders h p =
      [(S "Content-Type", S "application/json"),
       (S "Accept", S "application/json")] := by
    unfold mainHeaders
    rw [hna, hep]
    cases truthy (lookup? h (S "cookie")) with
    | none => rfl
    | some c => rfl
  constructor
  · rw [hmain]; rfl
  · intro c t hc ht
    unfold multipartHeaders
    rw [hmain]
    simp only [show lookup? [(S "Content-Type", S "application/json"),
      (S "Accept", S "application/json")] (S "Authorization") = none from rfl,
      hna, hc, ht]
    exact lookup?_cons_eq _ _ _

/-- C4 (witness): the amended claim instantiated at the multipart
`auth/login` request with cookie `auth_token=tok123`. -/
theorem C4_witness :
    lookup? (mainHeaders reqMultipartLogin.headers (S "auth/login"))
      (S "Authorization") = none ∧
    lookup? (multipartHeaders
        (mainHeaders reqMultipartLogin.headers (S "auth/login"))
        reqMultipartLogin.headers) (S "Authorization") =
      some (S "Bearer tok123") := by
  refine ⟨(C4_amended reqMultipartLogin.headers (S "auth/login") rfl rfl).1, ?_⟩
  exact (C4_amended reqMultipartLogin.headers (S "auth/login") rfl rfl).2
    (S "auth_token=tok123") (S "tok123") rfl rfl

/-! ## Claim C9 -/

/-- C9 (counterexample): a WebSocket-upgrade request to `messages/ws`
carrying inbound Authorization `abc.def.ghi` (and no `token` query
parameter or cookie) is proxied with an explicit header set that carries
NO Authorization header at all — the upgrade branch derives Authorization
only from the `token` query parameter or the cookie, so the inbound header
is not forwarded as `Bearer abc.def.ghi`. -/
theorem C9_cex :
    truthy (lookup? reqWsUpgradeAuth.headers (S "authorization")) =
      some (S "abc.def.ghi") ∧
    handler defaultConfig reqWsUpgradeAuth bJsonOk =
      { statusCode := none, copiedHeaders := [],
        transport := .proxyRequestCall (S "ws://localhost:8082/api/messages/ws")
          [(S "Upgrade", S "websocket"), (S "Connection", S "Upgrade")] } ∧
    lookup? [(S "Upgrade", S "websocket"), (S "Connection", S "Upgrade")]
      (S "Authorization") = none := by
  refine ⟨rfl, rfl, rfl⟩

/-- C9 (amended): on the buffered-JSON and streamed-multipart transport
paths, an inbound Authorization header is forwarded normalized: the value
is prefixed with `Bearer ` when that prefix is absent and forwarded
unchanged when already present (`abc.def.ghi` becomes
`Bearer abc.def.ghi`, `Bearer xyz` stays `Bearer xyz`); WebSocket-upgrade
requests are excluded — they derive Authorization solely from the `token`
query parameter or the `auth_token` cookie. -/
theorem C9_amended (h : List (Str × Str)) (p a : Str)
    (ha : truthy (lookup? h (S "authorization")) = some a) :
    lookup? (mainHeaders h p) (S "Authorization") = some (bearerize a) ∧
    lookup? (multipartHeaders (mainHeaders h p) h) (S "Authorization") =
      some (bearerize a) ∧
    bearerize (S "abc.def.ghi") = S "Bearer abc.def.ghi" ∧
    bearerize (S "Bearer xyz") = S "Bearer xyz" := by
  have hmain : mainHeaders h p =
      [(S "Content-Type", S "application/json"),
       (S "Accept", S "application/json"),
       (S "Authorization", bearerize a)] := by
    unfold mainHeaders
    rw [ha]
    rfl
  refine ⟨?_, ?_, rfl, rfl⟩
  · rw [hmain]; rfl
  · unfold multipartHeaders
    rw [hmain]
    simp [lookup?, List.find?]

/-- C9 (witness): the amended claim instantiated at a request whose
inbound Authorization header is `abc.def.ghi`. -/
theorem C9_witness :
    lookup? (mainHeaders [(S "authorization", S "abc.def.ghi")] (S "users"))
      (S "Authorization") = some (S "Bearer abc.def.ghi") ∧
    lookup? (multipartHeaders
        (mainHeaders [(S "authorization", S "abc.def.ghi")] (S "users"))
        [(S "authorization", S "abc.def.ghi")]) (S "Authorization") =
      some (S "Bearer abc.def.ghi") := by
  have h := C9_amended [(S "authorization", S "abc.def.ghi")] (S "users")
    (S "abc.def.ghi") rfl
  exact ⟨h.1, h.2.1⟩

/-! ## Claim C6 -/

/-- C6 (counterexample): a request that makes the pipeline throw (a
`presence/ws` request with no token) is converted by the outer catch into
the proxy-error body, but the outer catch sets no status code: the
response goes out with the default (success) status rather than a generic
failure status. -/
theorem C6_cex :
    handlerCore defaultConfig reqPresenceWsNoToken bJsonOk =
      .error (S "No token provided for WebSocket connection") ∧
    handler defaultConfig reqPresenceWsNoToken bJsonOk =
      { statusCode := none, copiedHeaders := [],
        transport := .respond (.jsonOut (proxyErrorBody defaultConfig
          (S "No token provided for WebSocket connection"))) } ∧
    (handler defaultConfig reqPresenceWsNoToken bJsonOk).statusCode = none := by
  refine ⟨rfl, rfl, rfl⟩

/-- C6 (amended): every error raised anywhere in the pipeline propagates
to the single outer catch and is converted into a body
`{error: "Proxy Error", message, stack}` where `stack` is present exactly
when the configuration is `development`; however no failure status is set
— the outcome's status code is left at the default (success) value. -/
theorem C6_amended (cfg : Config) (req : Request) (b : BackendResponse)
    (msg : Str) (h : handlerCore cfg req b = .error msg) :
    handler cfg req b =
      { statusCode := none, copiedHeaders := [],
        transport := .respond (.jsonOut (proxyErrorBody cfg msg)) } ∧
    jfield (proxyErrorBody cfg msg) (S "error") = some (.str (S "Proxy Error")) ∧
    jfield (proxyErrorBody cfg msg) (S "message") = some (.str msg) ∧
    jfield (proxyErrorBody cfg msg) (S "stack") =
      (if cfg.isDevelopment then some (.str (S "stack trace")) else none) := by
  refine ⟨by simp [handler, h], ?_, ?_, ?_⟩ <;>
    (unfold proxyErrorBody jfield; cases cfg.isDevelopment <;> rfl)

/-- C6 (witness): the amended claim instantiated at the token-less
`presence/ws` request under the default (non-development) configuration:
the outcome is the proxy-error body, the `stack` field is absent, and the
status code is unset. -/
theorem C6_witness :
    handler defaultConfig reqPresenceWsNoToken bJsonOk =
      { statusCode := none, copiedHeaders := [],
        transport := .respond (.jsonOut (proxyErrorBody defaultConfig
          (S "No token provided for WebSocket connection"))) } ∧
    jfield (proxyErrorBody defaultConfig
        (S "No token provided for WebSocket connection")) (S "stack") = none := by
  have h := C6_amended defaultConfig reqPresenceWsNoToken bJsonOk
    (S "No token provided for WebSocket connection") rfl
  exact ⟨h.1, h.2.2.2⟩

/-! ## Claim C10 -/

/-- C10 (counterexample): an OPTIONS request whose path contains
`presence/ws` and which carries a `token` query parameter does not return
the `{wsUrl}` object: the CORS-preflight short-circuit answers first with
an empty 200 response. -/
theorem C10_cex :
    truthy (lookup? reqPresenceWsOptions.query (S "token")) = some (S "abc") ∧
    jsIncludes (stripProxyPrefix reqPresenceWsOptions.rawPath)
      (S "presence/ws") = true ∧
    isWebSocketRequest reqPresenceWsOptions.headers = false ∧
    handler defaultConfig reqPresenceWsOptions bJsonOk =
      { statusCode := some 200, copiedHeaders := [],
        transport := .respond .empty } := by
  refine ⟨rfl, by decide, rfl, rfl⟩

/-- C10 (amended): for every non-OPTIONS request that fails the
Connection/Upgrade WebSocket test but whose normalized path contains
`presence/ws`: when a non-empty `token` query parameter is present the
handler returns a `{wsUrl}` object built from the presence base URL with
the scheme rewritten `http`→`ws` and the first occurrence of `/api`
removed (the suffix, for bases in which `/api` occurs only as a suffix),
making no outbound call; when the token parameter is absent or empty, the
thrown error is converted into the generic proxy-error shape. -/
theorem C10_amended (cfg : Config) (req : Request) (b : BackendResponse)
    (hm : (req.method == S "OPTIONS") = false)
    (hws : isWebSocketRequest req.headers = false)
    (hp : jsIncludes (stripProxyPrefix req.rawPath) (S "presence/ws") = true) :
    (∀ t, truthy (lookup? req.query (S "token")) = some t →
      handler cfg req b =
        { statusCode := none, copiedHeaders := [],
          transport := .respond (.jsonOut (.obj [(S "wsUrl",
            .str (replaceFirst (S "/api") [] (replaceHttpWs cfg.presenceBase) ++
              S "/presence/ws?token=" ++ t))])) }) ∧
    (truthy (lookup? req.query (S "token")) = none →
      handler cfg req b =
        { statusCode := none, copiedHeaders := [],
          transport := .respond (.jsonOut (proxyErrorBody cfg
            (S "No token provided for WebSocket connection"))) }) := by
  constructor
  · intro t ht
    simp [handler, handlerCore, hm, hws, hp, ht]
  · intro ht
    simp [handler, handlerCore, hm, hws, hp, ht]

/-- C10 (witness): the amended claim instantiated at a plain GET to
`presence/ws` with token `tok` and at the token-less variant, under the
default configuration (where `/api` occurs only as a suffix of the
presence base URL). -/
theorem C10_witness :
    handler defaultConfig reqPresenceWsToken bJsonOk =
      { statusCode := none, copiedHeaders := [],
        transport := .respond (.jsonOut (.obj [(S "wsUrl",
          .str (S "ws://localhost:8085/presence/ws?token=tok"))])) } ∧
    handler defaultConfig reqPresenceWsNoToken bJsonOk =
      { statusCode := none, copiedHeaders := [],
        transport := .respond (.jsonOut (proxyErrorBody defaultConfig
          (S "No token provided for WebSocket connection"))) } := by
  have h := C10_amended defaultConfig reqPresenceWsToken bJsonOk rfl rfl (by decide)
  have h2 := C10_amended defaultConfig reqPresenceWsNoToken bJsonOk rfl rfl (by decide)
  exact ⟨h.1 (S "tok") rfl, h2.2 rfl⟩

/-! ## Claim C2 -/

theorem startsWith_exists {p q : Str} (h : jsStartsWith p q = true) :
    ∃ t, p = q ++ t := by
  obtain ⟨t, ht⟩ := jsStartsWith_iff.1 h
  exact ⟨t, ht.symm⟩

theorem append_ne_nil_left {a b : Str} (ha : a ≠ []) : a ++ b ≠ [] := by
  cases a with
  | nil => exact absurd rfl ha
  | cons x xs => simp

/-- Every branch of the base-URL selection returns a well-formed base when
the configuration is well formed (the `ensureValidUrl` and protocol
fix-ups are identities on well-formed bases). -/
theorem classifyBase_goodBase {cfg : Config} (hc : goodConfig cfg)
    (p : Str) (q : List (Str × Str)) : goodBase (classifyBase cfg p q).1 := by
  obtain ⟨h1, h2, h3, h4, h5⟩ := hc
  unfold classifyBase
  cases hc1 : jsStartsWith p (S "notifications") with
  | true => simpa using h3
  | false =>
    cases hc2 : jsStartsWith p (S "presence") with
    | true =>
      obtain ⟨r, hb, hr, hrne, hrh, hrl⟩ := h5
      have hproto : jsStartsWith cfg.presenceBase (S "http://") = true := by
        rw [hb]; exact jsStartsWith_append _ _
      by_cases hin : (jsStartsWith p (S "presence/users") && !q.isEmpty &&
          (truthy (lookup? q (S "user_ids"))).isSome) = true
      · simp only [hc1, hc2, hin, hproto, Bool.false_eq_true, if_false, if_true,
          Bool.true_or]
        exact ⟨r, hb, hr, hrne, hrh, hrl⟩
      · simp only [hc1, hc2, Bool.false_eq_true, if_false, if_true,
          eq_false_of_ne_true hin]
        exact ⟨r, hb, hr, hrne, hrh, hrl⟩
    | false =>
      cases hc3 : ((jsStartsWith p (S "groups") || jsStartsWith p (S "group")) &&
          !jsIncludes p (S "message")) with
      | true =>
        obtain ⟨r, hb, hr, hrne, hrh, hrl⟩ := h2
        simp only [hc1, hc2, hc3, Bool.false_eq_true, if_false, if_true]
        rw [hb, ensureValidUrl_http hr hrh]
        exact ⟨r, rfl, hr, hrne, hrh, hrl⟩
      | false =>
        cases hc4 : (jsStartsWith p (S "files") || jsStartsWith p (S "media")) with
        | true => simp only [hc1, hc2, hc3, hc4, Bool.false_eq_true, if_false,
            if_true]; exact h4
        | false =>
          by_cases hmc : messageCond p = true
          · simp only [hc1, hc2, hc3, hc4, hmc, Bool.false_eq_true, if_false,
              if_true]
            exact h2
          · simp only [hc1, hc2, hc3, hc4, Bool.false_eq_true, if_false,
              eq_false_of_ne_true hmc]
            exact h1

/-- The `presence/users` query construction keeps the URL in
`http://<rest>` form with a duplicate-slash-free tail. -/
theorem presenceUsersUrl_shape (r : Str) (q : List (Str × Str)) :
    ∃ tail, presenceUsersUrl ((S "http://" ++ r) ++ S "/presence/users") q =
      S "http://" ++ (r ++ tail) ∧ hasDS tail = false := by
  unfold presenceUsersUrl
  split
  · rename_i uv heq
    split
    · -- comma-separated user_ids
      refine ⟨S "/presence/users" ++ (S "?user_ids=" ++
        joinComma ((splitChar ',' uv).map (fun i => encodeURIComponent (jsTrim i)))),
        ?_, ?_⟩
      · simp only [List.append_assoc]
      · refine hasDS_append_false (by decide) ?_ (fun hl => absurd hl (by decide))
        refine hasDS_append_false (by decide) ?_ (fun hl => absurd hl (by decide))
        refine hasDS_false_of_slashFree (slashFree_joinComma ?_)
        intro x hx
        obtain ⟨i, _, rfl⟩ := List.mem_map.1 hx
        exact slashFree_encodeURIComponent _
    · -- single user_ids value
      refine ⟨S "/presence/users" ++ '?' :: spToString [(S "user_ids", uv)], ?_, ?_⟩
      · simp only [List.append_assoc]
      · refine hasDS_append_false (by decide) ?_ (fun hl => absurd hl (by decide))
        exact hasDS_false_of_slashFree
          (slashFree_cons (by decide) (slashFree_spToString _))
  · -- no user_ids
    exact ⟨S "/presence/users", List.append_assoc _ _ _, by decide⟩

/-- The file-service URL construction keeps the URL in `http://<rest>`
form with a duplicate-slash-free tail. -/
theorem fileServiceUrl_shape {r p : Str} (hp : hasDS p = false)
    (hph : p.head? ≠ some '/') :
    ∃ tail, fileServiceUrl (S "http://" ++ r) p = S "http://" ++ (r ++ tail) ∧
      hasDS tail = false := by
  unfold fileServiceUrl
  split
  · -- files/<rest>
    rename_i hpre
    obtain ⟨t, rfl⟩ := startsWith_exists hpre
    rw [show (S "files/" ++ t).drop 6 = t from List.drop_left' rfl]
    have htds : hasDS t = false := hasDS_append_right hp
    have htb : t.head? ≠ some '/' := hasDS_append_boundary hp (by decide)
    refine ⟨S "/api/files/" ++ t, ?_, ?_⟩
    · simp only [List.append_assoc]
    · exact hasDS_append_false (by decide) htds (fun _ => htb)
  split
  · -- media/<rest>
    rename_i hpre2
    obtain ⟨t, rfl⟩ := startsWith_exists hpre2
    rw [show (S "media/" ++ t).drop 6 = t from List.drop_left' rfl]
    have htds : hasDS t = false := hasDS_append_right hp
    have htb : t.head? ≠ some '/' := hasDS_append_boundary hp (by decide)
    refine ⟨S "/api/media/" ++ t, ?_, ?_⟩
    · simp only [List.append_assoc]
    · exact hasDS_append_false (by decide) htds (fun _ => htb)
  split
  · -- bare files
    exact ⟨S "/api/files", List.append_assoc _ _ _, by decide⟩
  split
  · -- bare media
    exact ⟨S "/api/media", List.append_assoc _ _ _, by decide⟩
  · -- other file-service path
    refine ⟨S "/api/" ++ p, ?_, ?_⟩
    · simp only [List.append_assoc]
    · exact hasDS_append_false (by decide) hp (fun _ => hph)

/-- The singular/plural message-path normalization preserves freedom from
duplicate slashes and a non-slash head. -/
theorem messageMiscPath_noDS {p : Str} (hp : hasDS p = false)
    (hph : p.head? ≠ some '/') :
    hasDS ('/' :: messageMiscPath p) = false := by
  unfold messageMiscPath
  split
  · rename_i hpre
    obtain ⟨t, rfl⟩ := startsWith_exists hpre
    have hpne : S "message/" ++ t ≠ [] := append_ne_nil_left (by decide)
    rw [replaceFirst_of_isPrefixOf hpne hpre,
      show (S "message/" ++ t).drop (S "message/").length = t from
        List.drop_left _ _]
    have htds : hasDS t = false := hasDS_append_right hp
    have htb : t.head? ≠ some '/' := hasDS_append_boundary hp (by decide)
    refine hasDS_cons_of ?_ (fun _ => ?_)
    · exact hasDS_append_false (by decide) htds (fun _ => htb)
    · rw [show (S "messages/" ++ t).head? = some 'm' from rfl]
      decide
  · exact hasDS_cons_of hp (fun _ => hph)

/-- On a well-formed base the group URL construction passes its validity
check and is the plain concatenation. -/
theorem groupUrl_shape {r : Str} (p : Str) (hrne : r ≠ [])
    (hrh : r.head? ≠ some '/') :
    groupUrl (S "http://" ++ r) p = S "http://" ++ (r ++ '/' :: p) := by
  unfold groupUrl
  rw [withProtoStrict_http,
    show (S "http://" ++ r) ++ '/' :: p = S "http://" ++ (r ++ '/' :: p) from
      List.append_assoc _ _ _]
  rw [if_pos (jsURLValid_http (append_ne_nil_left hrne)
    (by rw [head?_append_ne_nil hrne]; exact hrh))]

/-- Every branch of the special-case URL chain produces
`http://<base-rest>/<tail>` with a duplicate-slash-free tail. -/
theorem coreUrl_shape {r p : Str} (fr : Bool) (m : Str) (q : List (Str × Str))
    (hp : hasDS p = false) (hph : p.head? ≠ some '/')
    (hrne : r ≠ []) (hrh : r.head? ≠ some '/') :
    ∃ tail, coreUrl (S "http://" ++ r) fr p m q = S "http://" ++ (r ++ tail) ∧
      hasDS tail = false := by
  have hpart : slashFree ((splitChar '/' p).getD 1 []) :=
    splitChar_getD_slashFree p 1
  have hmsgs : ∀ part : Str, slashFree part →
      hasDS (S "/messages/" ++ part) = false := fun part hpp =>
    hasDS_append_false (by decide) (hasDS_false_of_slashFree hpp)
      (fun _ => slashFree_head hpp)
  rw [coreUrl.eq_def]
  by_cases hc1 : (p == S "messages/history" || p == S "message/history") = true
  · rw [if_pos hc1, withProtoLoose_http]
    exact ⟨S "/messages/history", List.append_assoc _ _ _, by decide⟩
  rw [if_neg hc1]
  by_cases hc2 : jsStartsWith p (S "presence/users") = true
  · rw [if_pos hc2, withProtoLoose_http]
    exact presenceUsersUrl_shape r q
  rw [if_neg hc2]
  by_cases hc3 : (jsStartsWith p (S "message/") &&
      (splitChar '/' p).length == 2 && m == S "GET") = true
  · rw [if_pos hc3, withProtoLoose_http]
    refine ⟨S "/messages/" ++ (splitChar '/' p).getD 1 [], ?_, hmsgs _ hpart⟩
    simp only [List.append_assoc]
  rw [if_neg hc3]
  by_cases hc4 : ((jsStartsWith p (S "messages/") || jsStartsWith p (S "message/")) &&
      2 ≤ (splitChar '/' p).length && m == S "DELETE") = true
  · rw [if_pos hc4, withProtoLoose_http]
    refine ⟨S "/messages/" ++ (splitChar '/' p).getD 1 [], ?_, hmsgs _ hpart⟩
    simp only [List.append_assoc]
  rw [if_neg hc4]
  by_cases hc5 : ((jsStartsWith p (S "messages/") || jsStartsWith p (S "message/")) &&
      2 ≤ (splitChar '/' p).length && (m == S "PUT" || m == S "PATCH")) = true
  · rw [if_pos hc5, withProtoLoose_http]
    refine ⟨S "/messages/" ++ (splitChar '/' p).getD 1 [], ?_, hmsgs _ hpart⟩
    simp only [List.append_assoc]
  rw [if_neg hc5]
  by_cases hc6 : ((p == S "messages" || p == S "message") && m == S "POST") = true
  · rw [if_pos hc6, withProtoLoose_http]
    exact ⟨S "/messages", List.append_assoc _ _ _, by decide⟩
  rw [if_neg hc6]
  by_cases hc7 : ((jsStartsWith p (S "messages/") || jsStartsWith p (S "message/")) &&
      (jsIncludes p (S "/read") || jsIncludes p (S "/search") ||
        jsIncludes p (S "/unread-count"))) = true
  · rw [if_pos hc7, withProtoLoose_http]
    exact ⟨'/' :: messageMiscPath p, List.append_assoc _ _ _,
      messageMiscPath_noDS hp hph⟩
  rw [if_neg hc7]
  by_cases hc8 : jsStartsWith p (S "presence/") = true
  · rw [if_pos hc8, withProtoLoose_http]
    exact ⟨'/' :: p, List.append_assoc _ _ _, hasDS_cons_of hp (fun _ => hph)⟩
  rw [if_neg hc8]
  by_cases hc9 : fr = true
  · rw [if_pos hc9]
    exact fileServiceUrl_shape hp hph
  rw [if_neg hc9]
  by_cases hc10 : jsStartsWith p (S "presence") = true
  · rw [if_pos hc10]
    exact ⟨'/' :: p, List.append_assoc _ _ _, hasDS_cons_of hp (fun _ => hph)⟩
  rw [if_neg hc10]
  by_cases hc11 : jsStartsWith p (S "notifications") = true
  · rw [if_pos hc11]
    exact ⟨'/' :: p, List.append_assoc _ _ _, hasDS_cons_of hp (fun _ => hph)⟩
  rw [if_neg hc11]
  by_cases hc12 : (jsStartsWith p (S "groups") || jsStartsWith p (S "group")) = true
  · rw [if_pos hc12]
    exact ⟨'/' :: p, groupUrl_shape p hrne hrh, hasDS_cons_of hp (fun _ => hph)⟩
  rw [if_neg hc12, withProtoStrict_http]
  exact ⟨'/' :: p, List.append_assoc _ _ _, hasDS_cons_of hp (fun _ => hph)⟩

/-- Query appending and the `messages/history` repair pass preserve
well-formedness: the final URL is valid and free of duplicate slashes
outside the scheme. -/
theorem buildFinish (p : Str) (q : List (Str × Str)) {r tail : Str}
    (hr : hasDS r = false) (hrne : r ≠ []) (hrh : r.head? ≠ some '/')
    (hrl : r.getLast? ≠ some '/') (ht : hasDS tail = false) :
    jsURLValid (repairMH p (appendQuery (S "http://" ++ (r ++ tail)) q)) = true ∧
    dsOutsideScheme (repairMH p (appendQuery (S "http://" ++ (r ++ tail)) q)) = false := by
  have htds : hasDS (r ++ tail) = false :=
    hasDS_append_false hr ht (fun hl => absurd hl hrl)
  have htne : r ++ tail ≠ [] := append_ne_nil_left hrne
  have hth : (r ++ tail).head? ≠ some '/' := by
    rw [head?_append_ne_nil hrne]; exact hrh
  have happ : ∃ t2, appendQuery (S "http://" ++ (r ++ tail)) q = S "http://" ++ t2 ∧
      hasDS t2 = false ∧ t2 ≠ [] ∧ t2.head? ≠ some '/' := by
    unfold appendQuery
    by_cases hq : jsIncludes (S "http://" ++ (r ++ tail)) (S "?") = true
    · rw [if_pos hq]
      exact ⟨r ++ tail, rfl, htds, htne, hth⟩
    · rw [if_neg hq]
      by_cases hqs : (spToString q).isEmpty = true
      · rw [if_pos hqs]
        exact ⟨r ++ tail, rfl, htds, htne, hth⟩
      · rw [if_neg hqs]
        refine ⟨(r ++ tail) ++ '?' :: spToString q, List.append_assoc _ _ _,
          ?_, append_ne_nil_left htne, ?_⟩
        · refine hasDS_append_false htds ?_ (fun _ => by simp)
          exact hasDS_false_of_slashFree
            (slashFree_cons (by decide) (slashFree_spToString q))
        · rw [head?_append_ne_nil htne]
          exact hth
  obtain ⟨t2, he, ht2, ht2ne, ht2h⟩ := happ
  rw [he]
  have hval : jsURLValid (S "http://" ++ t2) = true := jsURLValid_http ht2ne ht2h
  have hrep : repairMH p (S "http://" ++ t2) = S "http://" ++ t2 := by
    unfold repairMH
    by_cases hmh : jsIncludes p (S "messages/history") = true
    · rw [if_pos hmh, if_pos hval]
    · rw [if_neg hmh]
  rw [hrep]
  refine ⟨hval, ?_⟩
  unfold dsOutsideScheme
  rw [stripScheme_http]
  exact ht2

/-- For a well-formed base URL and a path with no duplicate slash and no
leading slash, the constructed URL is valid and duplicate-slash-free. -/
theorem buildUrl_good {b : Str} (hb : goodBase b) (fr : Bool) {p : Str}
    (m : Str) (q : List (Str × Str)) (hp : hasDS p = false)
    (hph : p.head? ≠ some '/') :
    jsURLValid (buildUrl b fr p m q) = true ∧
    dsOutsideScheme (buildUrl b fr p m q) = false := by
  obtain ⟨r, rfl, hr, hrne, hrh, hrl⟩ := hb
  obtain ⟨tail, hco, htail⟩ := coreUrl_shape fr m q hp hph hrne hrh
  unfold buildUrl
  rw [hco]
  exact buildFinish p q hr hrne hrh hrl htail

/-- C2 (counterexample): with a configured base URL ending in a slash, the
resolved URL for path `users` is syntactically valid (so it is used, not
rejected) yet contains `//` outside the scheme separator — the generic
construction appends `base + "/" + path` without collapsing slashes. -/
theorem C2_cex :
    resolveUrl cfgTrailingSlash (S "users") (S "GET") [] =
      S "http://localhost:8081/api//users" ∧
    jsURLValid (resolveUrl cfgTrailingSlash (S "users") (S "GET") []) = true ∧
    dsOutsideScheme (resolveUrl cfgTrailingSlash (S "users") (S "GET") []) = true := by
  refine ⟨rfl, rfl, rfl⟩

/-- C2 (amended): for every inbound method, path and query, provided the
configured base URLs are well formed (scheme present, no internal
duplicate slash, no trailing slash) and the normalized path has no
duplicate slash and no leading slash, the resolved URL is a syntactically
valid absolute URL containing no `//` outside the scheme separator; a
configured base URL ending in a slash violates this (see the
counterexample), as no slash collapsing is applied on the generic path. -/
theorem C2_amended (cfg : Config) (p m : Str) (q : List (Str × Str))
    (hc : goodConfig cfg) (hp : hasDS p = false) (hph : p.head? ≠ some '/') :
    jsURLValid (resolveUrl cfg p m q) = true ∧
    dsOutsideScheme (resolveUrl cfg p m q) = false := by
  unfold resolveUrl
  exact buildUrl_good (classifyBase_goodBase hc p q) _ m q hp hph

/-- C2 (witness): the amended claim instantiated at the default
configuration with path `users/profile` and query `page=2`. -/
theorem C2_witness :
    jsURLValid (resolveUrl defaultConfig (S "users/profile") (S "GET")
      [(S "page", S "2")]) = true ∧
    dsOutsideScheme (resolveUrl defaultConfig (S "users/profile") (S "GET")
      [(S "page", S "2")]) = false := by
  refine C2_amended defaultConfig (S "users/profile") (S "GET")
    [(S "page", S "2")] ⟨?_, ?_, ?_, ?_, ?_⟩ (by decide) (by decide)
  · exact ⟨S "localhost:8081/api", rfl, by decide, by decide, by decide, by decide⟩
  · exact ⟨S "localhost:8082/api", rfl, by decide, by decide, by decide, by decide⟩
  · exact ⟨S "localhost:8083/api", rfl, by decide, by decide, by decide, by decide⟩
  · exact ⟨S "localhost:8084", rfl, by decide, by decide, by decide, by decide⟩
  · exact ⟨S "localhost:8085/api", rfl, by decide, by decide, by decide, by decide⟩

end Proxy
